import Mathlib

/-!
# Shallow embedding of `hrv/utils.py`

This file embeds the RRI-loading and interpolation pipeline of the `hrv`
package in Lean 4 and proves properties of it.

Modelling conventions:
* Python strings are `List Char` (theorem statements use `String` literals
  and pass `.data`).
* Python floats produced by the pipeline are modelled as `ℚ`: every number
  reaching the pipeline is the value of a decimal digit string or a ratio
  of such values, so exact rational arithmetic is the intended semantics.
* Python lists are `List ℚ`; `np.array` of a list of floats is represented
  by the list itself.
* Exceptions (`EmptyFileError`, `FileNotSupportedError`, and the `NameError`
  raised by `open_rri` on a non-`str`, non-`TextIOWrapper` argument) become
  an explicit error type `Err` with `Except`.
-/

deriving instance DecidableEq for Except

namespace HRV

/-- The exceptions the module can raise. `emptyFile` is `EmptyFileError`,
`fileNotSupported` is `FileNotSupportedError`, and `nameError` is the
`NameError`/`UnboundLocalError` in `open_rri` when `pathname_or_fileobj`
is neither a `str` nor an `io.TextIOWrapper` (`rri` is never assigned). -/
inductive Err where
  | emptyFile
  | fileNotSupported
  | nameError
deriving DecidableEq, Repr

/-- The classification returned by `_identify_rri_file_type`. -/
inductive FileType where
  | hrm
  | text
deriving DecidableEq, Repr

/-- Python's whitespace set for `str.strip()`: space, tab, newline,
carriage return, vertical tab, form feed. -/
def pyWS (c : Char) : Bool :=
  c = ' ' || c = '\t' || c = '\n' || c = '\r' || c = '\x0b' || c = '\x0c'

/-- Python `str.strip()`: drop leading and trailing whitespace. -/
def pyStrip (s : List Char) : List Char :=
  ((s.dropWhile pyWS).reverse.dropWhile pyWS).reverse

/-- Python `str.split('\n')`: split on every newline, keeping empty pieces;
the empty string yields one empty piece. -/
def splitNL : List Char → List (List Char)
  | [] => [[]]
  | c :: cs =>
    if c = '\n' then [] :: splitNL cs
    else
      match splitNL cs with
      | [] => [[c]]
      | l :: ls => (c :: l) :: ls

/-- Python `str.find(pat)` restricted to its result as an `Option`:
`some i` is the first index where `pat` occurs, `none` means `find`
returned `-1`. -/
def findSub (pat : List Char) (s : List Char) : Option Nat :=
  if pat.isPrefixOf s then some 0
  else
    match s with
    | [] => none
    | _ :: rest => (findSub pat rest).map (· + 1)

/-- Single left-to-right scan behind `re.findall(r'\d+', s)`: `run` is the
digit run currently being matched, in reverse order (`[]` when the scanner
is between matches); a maximal run is emitted when a non-digit or the end
of the input closes it. -/
def digitRunsAux (run : List Char) : List Char → List (List Char)
  | [] => if run = [] then [] else [run.reverse]
  | c :: cs =>
    if c.isDigit then digitRunsAux (c :: run) cs
    else if run = [] then digitRunsAux [] cs
    else run.reverse :: digitRunsAux [] cs

/-- Embedding of `re.findall(r'\d+', s)`: the maximal runs of decimal digits in `s`,
left to right. -/
def findallDigits (s : List Char) : List (List Char) := digitRunsAux [] s

/-- Single left-to-right scan behind `re.findall(r'[1-9]\d+', s)`: `run`
is the candidate match being grown, in reverse order. A candidate opens at
a digit `1`–`9`, grows greedily over digits, and is emitted only when it
closes with at least two characters; a one-character candidate is a failed
match, and the scan resumes at the character that closed it (which, being
a non-digit, cannot itself open a match). -/
def rriRunsAux (run : List Char) : List Char → List (List Char)
  | [] => if 2 ≤ run.length then [run.reverse] else []
  | c :: cs =>
    if run = [] then
      if '1' ≤ c ∧ c ≤ '9' then rriRunsAux [c] cs else rriRunsAux [] cs
    else if c.isDigit then rriRunsAux (c :: run) cs
    else if 2 ≤ run.length then run.reverse :: rriRunsAux [] cs
    else rriRunsAux [] cs

/-- Embedding of `re.findall(r'[1-9]\d+', s)`: leftmost, non-overlapping, greedy matches
of a digit `1`–`9` followed by one or more digits. -/
def findallRRI (s : List Char) : List (List Char) := rriRunsAux [] s

/-- The decimal value of a digit string. -/
def digitsToNat (ds : List Char) : ℕ :=
  ds.foldl (fun acc c => acc * 10 + (c.toNat - '0'.toNat)) 0

/-- Python `float(m)` for a digit-string match `m`: its decimal value
(exact, since every match is a short decimal integer). -/
def digitsToQ (ds : List Char) : ℚ := (digitsToNat ds : ℚ)

/-- The HRM section marker `'[HRData]'`. -/
def hrDataMarker : List Char := "[HRData]".data

/-- Embedding of `_open_rri_from_text`: all matches of `[1-9]\d+` in the content,
converted to floats, in text order. -/
def _open_rri_from_text (content : List Char) : List ℚ :=
  (findallRRI content).map digitsToQ

/-- Embedding of `_open_rri_from_hrm`: find `'[HRData]'`; if absent return `None`,
otherwise all matches of `\d+` in `content[idx:-1]` (from the marker up to
but excluding the final character), converted to floats. -/
def _open_rri_from_hrm (content : List Char) : Option (List ℚ) :=
  match findSub hrDataMarker content with
  | none => none
  | some i => some ((findallDigits ((content.drop i).dropLast)).map digitsToQ)

/-- The per-line check in `_identify_rri_file_type`: a line passes when it
has no digit run, or its first digit run equals the stripped line. -/
def lineOK (line : List Char) : Bool :=
  match findallDigits line with
  | [] => true
  | m :: _ => m = pyStrip line

/-- Embedding of `_identify_rri_file_type`: content containing `'[HRData]'` is `hrm`;
otherwise every line must pass `lineOK` (else `FileNotSupportedError`),
and the content is `text`. -/
def _identify_rri_file_type (content : List Char) : Except Err FileType :=
  if (findSub hrDataMarker content).isSome then .ok .hrm
  else if (splitNL content).all lineOK then .ok .text
  else .error .fileNotSupported

/-- Embedding of `_open_rri_from_fileobj` on the file's full text: classify, parse with
the matching parser, and raise `EmptyFileError` when the parser produced
no data (`None` or an empty list). -/
def _open_rri_from_fileobj (content : List Char) : Except Err (List ℚ) :=
  match _identify_rri_file_type content with
  | .error e => .error e
  | .ok .text =>
    let rri := _open_rri_from_text content
    if rri = [] then .error .emptyFile else .ok rri
  | .ok .hrm =>
    match _open_rri_from_hrm content with
    | none => .error .emptyFile
    | some rri => if rri = [] then .error .emptyFile else .ok rri

/-- Python `str.endswith(suffix)`. -/
def pyEndswith (s suffix : String) : Bool :=
  suffix.data.isSuffixOf s.data

/-- Embedding of `_open_rri_from_path`: only `.txt` and `.hrm` extensions are accepted
(both branches do the same thing: open the file and hand its content to
`_open_rri_from_fileobj`); any other extension raises
`FileNotSupportedError`. The file's content stands in for the file. -/
def _open_rri_from_path (pathname : String) (content : String) : Except Err (List ℚ) :=
  if pyEndswith pathname ".txt" then _open_rri_from_fileobj content.data
  else if pyEndswith pathname ".hrm" then _open_rri_from_fileobj content.data
  else .error .fileNotSupported

/-- One step of insertion sort (ascending). -/
def insertSorted (x : ℚ) : List ℚ → List ℚ
  | [] => [x]
  | y :: ys => if x ≤ y then x :: y :: ys else y :: insertSorted x ys

/-- The ascending sort `np.median` performs internally. -/
def pySort : List ℚ → List ℚ
  | [] => []
  | x :: xs => insertSorted x (pySort xs)

/-- Embedding of `np.median` on a list: sort ascending, take the middle element (odd
length) or the mean of the two middle elements (even length). On an empty
list `np.median` yields `nan`; that case is `none` here. -/
def npMedian (l : List ℚ) : Option ℚ :=
  if l.length = 0 then none
  else
    let s := pySort l
    if l.length % 2 = 1 then some (s.getD (l.length / 2) 0)
    else some ((s.getD (l.length / 2 - 1) 0 + s.getD (l.length / 2) 0) / 2)

/-- Embedding of `_transform_rri_to_miliseconds` as executed on the Python **list** the
parsers produce: `np.median(rri) < 1` is tested first (on the empty list
the median is `nan`, so the comparison is false and the list is returned
unchanged); when it holds, `rri *= 1000` is executed, and on a Python list
`*=` is in-place **repetition**, so the result is the list concatenated
with itself 1000 times — not the values scaled by 1000. -/
def _transform_rri_to_miliseconds (rri : List ℚ) : List ℚ :=
  match npMedian rri with
  | none => rri
  | some m => if m < 1 then (List.replicate 1000 rri).flatten else rri

/-- Embedding of `_transform_rri`: unit-normalize, then `np.array` (identity in this
model, where a 1-d float array is a `List ℚ`). -/
def _transform_rri (rri : List ℚ) : List ℚ :=
  _transform_rri_to_miliseconds rri

/-- The argument accepted by `open_rri`: a path (`str`) — carrying the
content of the file it names, since the embedding has no filesystem — an
open text stream (`io.TextIOWrapper`) carrying its content, or any other
Python value. -/
inductive PInput where
  | path (pathname : String) (content : String)
  | fileobj (content : String)
  | other
deriving Repr

/-- Embedding of `open_rri`: dispatch on the argument's type, then canonicalize with
`_transform_rri`. For an argument that is neither a `str` nor an
`io.TextIOWrapper`, no branch assigns `rri` and the final
`_transform_rri(rri)` raises `NameError`/`UnboundLocalError`. -/
def open_rri : PInput → Except Err (List ℚ)
  | .path pathname content =>
    match _open_rri_from_path pathname content with
    | .error e => .error e
    | .ok rri => .ok (_transform_rri rri)
  | .fileobj content =>
    match _open_rri_from_fileobj content.data with
    | .error e => .error e
    | .ok rri => .ok (_transform_rri rri)
  | .other => .error .nameError

/-- Embedding of `np.cumsum` with a running accumulator. -/
def cumsumAux (acc : ℚ) : List ℚ → List ℚ
  | [] => []
  | x :: xs => (acc + x) :: cumsumAux (acc + x) xs

/-- Embedding of `np.cumsum`: partial sums, same length as the input. -/
def np_cumsum (l : List ℚ) : List ℚ := cumsumAux 0 l

/-- Embedding of `_create_time_info`: cumulative sum of the intervals divided by 1000
(seconds), shifted so the first entry is zero. -/
def _create_time_info (rri : List ℚ) : List ℚ :=
  let rri_time := (np_cumsum rri).map (fun t => t / 1000)
  rri_time.map (fun t => t - rri_time.headD 0)

/-- The ceiling of a rational, computed from its numerator and
denominator (`⌈n/d⌉ = -⌊-n/d⌋`, `d > 0`). -/
def ratCeil (q : ℚ) : ℤ := -((-q.num) / (q.den : ℤ))

/-- Embedding of `np.arange(start, stop, step)` for `step > 0`: the values
`start, start + step, …` in the half-open interval `[start, stop)`; numpy
computes the length as `⌈(stop - start) / step⌉`. -/
def np_arange (start stop step : ℚ) : List ℚ :=
  (List.range (ratCeil ((stop - start) / step)).toNat).map
    (fun k : ℕ => start + (k : ℚ) * step)

/-- Embedding of `_create_interp_time`: the uniform grid `np.arange(0, time_rri[-1],
1/fs)` over the irregular time base of `rri`. -/
def _create_interp_time (rri : List ℚ) (fs : ℚ) : List ℚ :=
  np_arange 0 ((_create_time_info rri).getLastD 0) (1 / fs)

/-- Embedding of `np.interp` at a single point over the knot list `(x, y)` pairs:
values clamp to the boundary outside the knot range and interpolate
linearly between consecutive knots. -/
def interpSegments (x : ℚ) : List (ℚ × ℚ) → ℚ
  | [] => 0
  | [(_, y0)] => y0
  | (x0, y0) :: (x1, y1) :: rest =>
    if x ≤ x0 then y0
    else if x ≤ x1 then y0 + (y1 - y0) * (x - x0) / (x1 - x0)
    else interpSegments x ((x1, y1) :: rest)

/-- Embedding of `_interp_linear`: the uniform grid and `np.interp` of the intervals
over the irregular time base, evaluated at every grid point. -/
def _interp_linear (rri : List ℚ) (fs : ℚ) : List ℚ × List ℚ :=
  let time_rri := _create_time_info rri
  let time_rri_interp := _create_interp_time rri fs
  (time_rri_interp, time_rri_interp.map (fun x => interpSegments x (time_rri.zip rri)))

/-- Modelled from the spec: `_interp_cubic_spline` calls
`scipy.interpolate.splrep`/`splev` — external library code, not part of
this repository — which the spec describes as an exact interpolating
spline through `(time base, intervals)` evaluated (zeroth derivative) at
every uniform grid point. Only the shape of the result — the pair of the
uniform grid and one value per grid point — matters to any claim; the
evaluation between knots is modelled here by piecewise-linear
interpolation standing in for the spline. -/
def _interp_cubic_spline (rri : List ℚ) (fs : ℚ) : List ℚ × List ℚ :=
  let time_rri := _create_time_info rri
  let time_rri_interp := _create_interp_time rri fs
  (time_rri_interp, time_rri_interp.map (fun x => interpSegments x (time_rri.zip rri)))

/-- Embedding of `_interpolate_rri`: dispatch on the method string. For a selector that
is neither `'cubic'` nor `'linear'` the Python function falls off the end
and returns `None`. -/
def _interpolate_rri (rri : List ℚ) (fs : ℚ) (interp_method : List Char) :
    Option (List ℚ × List ℚ) :=
  if interp_method = "cubic".data then some (_interp_cubic_spline rri fs)
  else if interp_method = "linear".data then some (_interp_linear rri fs)
  else none

/-!
## Theorems
-/

/-- Flattening `n` copies of a singleton list gives `n` copies of its
element. -/
theorem flatten_replicate_singleton {α : Type} (n : ℕ) (a : α) :
    (List.replicate n [a]).flatten = List.replicate n a := by
  induction n with
  | zero => rfl
  | succ k ih => simp [List.replicate_succ, ih]

/-- C1: the claim fails on the code. At the raw sequence `[0.5]` (a Python
list, as produced by the parsers) the median `0.5` is below 1, and
`rri *= 1000` on a Python list is in-place repetition: the result is 1000
copies of `0.5` — not `[500]`, the sequence with every value multiplied
by 1000. -/
theorem transform_rri_repeats_list_instead_of_scaling :
    _transform_rri_to_miliseconds [(1:ℚ)/2] = List.replicate 1000 ((1:ℚ)/2) ∧
    _transform_rri_to_miliseconds [(1:ℚ)/2] ≠ [(500:ℚ)] := by
  have h : _transform_rri_to_miliseconds [(1:ℚ)/2] = List.replicate 1000 ((1:ℚ)/2) := by
    have hm : npMedian [(1:ℚ)/2] = some ((1:ℚ)/2) := by
      simp [npMedian, pySort, insertSorted]
    unfold _transform_rri_to_miliseconds
    rw [hm]
    dsimp only
    rw [if_pos (by norm_num)]
    exact flatten_replicate_singleton 1000 _
  refine ⟨h, ?_⟩
  rw [h]
  intro hbad
  have hlen := congrArg List.length hbad
  simp only [List.length_replicate, List.length_singleton] at hlen
  exact absurd hlen (by decide)

/-- C3: the claim fails on the code. For every method selector other than
`'cubic'` and `'linear'`, `_interpolate_rri` falls off the end of the
function and returns `None` (no result); no error is raised. -/
theorem interpolate_rri_unknown_method_returns_none (rri : List ℚ) (fs : ℚ)
    (m : List Char) (hc : m ≠ "cubic".data) (hl : m ≠ "linear".data) :
    _interpolate_rri rri fs m = none := by
  unfold _interpolate_rri
  rw [if_neg hc, if_neg hl]

/-- Witness for C3's theorem: a concrete call with selector `'bogus'`
returns `None`. -/
theorem interpolate_rri_unknown_method_returns_none_witness :
    _interpolate_rri [800, 810, 790] 4 "bogus".data = none :=
  interpolate_rri_unknown_method_returns_none [800, 810, 790] 4 "bogus".data
    (by decide) (by decide)

/-- C7: the content `"5"` — a single digit alone on a line — passes the
one-integer-per-line sniff and is classified as text, the multi-digit
extraction regex `[1-9]\d+` yields zero matches, and loading the content
raises `EmptyFileError`. -/
theorem single_digit_sniffs_text_then_empty_data :
    _identify_rri_file_type "5".data = .ok .text ∧
    _open_rri_from_text "5".data = [] ∧
    _open_rri_from_fileobj "5".data = .error .emptyFile :=
  ⟨by decide, by decide, by decide⟩

/-- The function `cumsumAux` preserves length. -/
theorem cumsumAux_length (acc : ℚ) (l : List ℚ) : (cumsumAux acc l).length = l.length := by
  induction l generalizing acc with
  | nil => rfl
  | cons x xs ih => simp [cumsumAux, ih]

/-- The head of `cumsumAux acc (x :: xs)` is `acc + x`. -/
theorem cumsumAux_head (acc x : ℚ) (xs : List ℚ) :
    (cumsumAux acc (x :: xs)).head? = some (acc + x) := rfl

/-- Partial sums of non-negative values are non-decreasing. -/
theorem cumsumAux_chain (acc : ℚ) (l : List ℚ) (h : ∀ x ∈ l, 0 ≤ x) :
    List.Chain' (· ≤ ·) (cumsumAux acc l) := by
  induction l generalizing acc with
  | nil => exact List.chain'_nil
  | cons x xs ih =>
    rw [cumsumAux]
    refine List.chain'_cons'.mpr
      ⟨?_, ih (acc + x) (fun y hy => h y (List.mem_cons_of_mem _ hy))⟩
    intro b hb
    cases xs with
    | nil => simp [cumsumAux] at hb
    | cons y ys =>
      rw [cumsumAux_head] at hb
      simp only [Option.mem_some_iff] at hb
      have hy : 0 ≤ y := h y (by simp)
      rw [← hb]
      linarith

/-- The time base is non-decreasing whenever the intervals are
non-negative. -/
theorem create_time_info_chain (rri : List ℚ) (h : ∀ x ∈ rri, 0 ≤ x) :
    List.Chain' (· ≤ ·) (_create_time_info rri) := by
  simp only [_create_time_info]
  rw [List.chain'_map, List.chain'_map]
  refine (cumsumAux_chain 0 rri h).imp ?_
  intro a b hab
  have h1 : a / 1000 ≤ b / 1000 := by linarith
  linarith

/-- C4: for every non-empty sequence of strictly positive intervals the
time base has the same length as the input, starts at exactly 0, and is
non-decreasing at every adjacent pair of indices. -/
theorem create_time_info_zero_anchored_monotone (rri : List ℚ) (h1 : rri ≠ [])
    (h2 : ∀ x ∈ rri, 0 < x) :
    (_create_time_info rri).length = rri.length ∧
    (_create_time_info rri).head? = some 0 ∧
    ∀ i (hi : i + 1 < (_create_time_info rri).length),
      (_create_time_info rri).get ⟨i, Nat.lt_of_succ_lt hi⟩ ≤
        (_create_time_info rri).get ⟨i + 1, hi⟩ := by
  refine ⟨?_, ?_, ?_⟩
  · simp [_create_time_info, np_cumsum, cumsumAux_length]
  · obtain ⟨x, xs, rfl⟩ := List.exists_cons_of_ne_nil h1
    simp [_create_time_info, np_cumsum, cumsumAux]
  · have hchain := create_time_info_chain rri (fun x hx => le_of_lt (h2 x hx))
    rw [List.chain'_iff_get] at hchain
    intro i hi
    exact hchain i (by omega)

/-- Witness for C4's theorem at the canonical sequence `[800, 810, 790]`. -/
theorem create_time_info_zero_anchored_monotone_witness :
    (_create_time_info [(800:ℚ), 810, 790]).length = 3 ∧
    (_create_time_info [(800:ℚ), 810, 790]).head? = some 0 := by
  have h := create_time_info_zero_anchored_monotone [(800:ℚ), 810, 790]
    (by decide) (by decide)
  exact ⟨h.1, h.2.1⟩

/-- The function `ratCeil` is the mathematical ceiling. -/
theorem ratCeil_eq (q : ℚ) : ratCeil q = ⌈q⌉ := by
  have h : ratCeil q = -((-q).num / ((-q).den : ℤ)) := by
    rw [ratCeil, Rat.neg_num, Rat.neg_den]
  rw [h, ← Rat.floor_def, Int.floor_neg, neg_neg]

/-- The uniform grid has `⌈(stop - start) / step⌉` points. -/
theorem np_arange_length (start stop step : ℚ) :
    (np_arange start stop step).length = (⌈(stop - start) / step⌉).toNat := by
  rw [np_arange, List.length_map, List.length_range, ratCeil_eq]

/-- C2 (amended): for every non-empty positive interval sequence and
`fs > 0`, the uniform grid has exactly `⌈time_base[-1] * fs⌉` points —
the number of points of `[0, time_base[-1])` spaced `1/fs` apart. The
claimed `⌊time_base[-1] * fs⌋` agrees with this only when
`time_base[-1] * fs` is an integer. -/
theorem create_interp_time_length (rri : List ℚ) (fs : ℚ) (h1 : rri ≠ [])
    (h2 : ∀ x ∈ rri, 0 < x) (h3 : 0 < fs) :
    (_create_interp_time rri fs).length =
      (⌈((_create_time_info rri).getLastD 0) * fs⌉).toNat := by
  rw [_create_interp_time, np_arange_length]
  congr 2
  rw [sub_zero, div_div_eq_mul_div, div_one]

/-- Witness for C2's amended theorem at `rri = [1000, 1100]`, `fs = 4`. -/
theorem create_interp_time_length_witness :
    (_create_interp_time [(1000:ℚ), 1100] 4).length =
      (⌈((_create_time_info [(1000:ℚ), 1100]).getLastD 0) * 4⌉).toNat :=
  create_interp_time_length [(1000:ℚ), 1100] 4 (by decide) (by decide) (by norm_num)

/-- C2 (counterexample to the claim as stated): for `rri = [1000, 1100]`
(milliseconds) and `fs = 4` the last time-base value is `1.1` seconds, the
grid is `[0, 0.25, 0.5, 0.75, 1.0]` with 5 points, but
`⌊1.1 * 4⌋ = ⌊4.4⌋ = 4`. -/
theorem create_interp_time_length_floor_counterexample :
    (_create_interp_time [(1000:ℚ), 1100] 4).length ≠
      (⌊((_create_time_info [(1000:ℚ), 1100]).getLastD 0) * 4⌋).toNat := by
  have ht : (_create_time_info [(1000:ℚ), 1100]).getLastD 0 = 11/10 := by
    simp [_create_time_info, np_cumsum, cumsumAux]
    norm_num
  have hl : (_create_interp_time [(1000:ℚ), 1100] 4).length = 5 := by
    rw [_create_interp_time, np_arange_length, ht]
    rw [show ((11:ℚ)/10 - 0) / (1/4) = 22/5 by norm_num]
    rw [show ⌈(22/5 : ℚ)⌉ = 5 from Int.ceil_eq_iff.mpr (by norm_num)]
    rfl
  rw [hl, ht]
  rw [show (11:ℚ)/10 * 4 = 22/5 by norm_num]
  rw [show ⌊(22/5 : ℚ)⌋ = 4 from Int.floor_eq_iff.mpr (by norm_num)]
  decide

/-- A character between `'1'` and `'9'` is a digit. -/
theorem digit_of_one_to_nine (c : Char) (h1 : '1' ≤ c) (h9 : c ≤ '9') : c.isDigit = true := by
  simp only [Char.le_def] at h1 h9
  simp only [Char.isDigit, Bool.and_eq_true, decide_eq_true_eq, ge_iff_le]
  constructor
  · show (48 : UInt32).toNat ≤ c.val.toNat
    have h1a : (49 : UInt32).toNat ≤ c.val.toNat := h1
    have e1 : (49 : UInt32).toNat = 49 := rfl
    have e2 : (48 : UInt32).toNat = 48 := rfl
    omega
  · exact h9

/-- The invariant of the `[1-9]\d+` scanner state: every character of the
candidate run (stored in reverse) is a digit, and the character that
opened the run — its last element — is between `'1'` and `'9'`. -/
def goodRun (run : List Char) : Prop :=
  (∀ d ∈ run, d.isDigit = true) ∧ (∀ c, run.getLast? = some c → '1' ≤ c ∧ c ≤ '9')

/-- The empty scanner state satisfies the invariant. -/
theorem goodRun_nil : goodRun [] :=
  ⟨fun d hd => absurd hd (List.not_mem_nil d), fun c hc => by simp at hc⟩

/-- A candidate run of length at least 2 satisfying the invariant is
emitted reversed as a match of the required shape. -/
theorem goodRun_emit (run : List Char) (hg : goodRun run) (h2 : 2 ≤ run.length) :
    2 ≤ run.reverse.length ∧
    (∃ c, run.reverse.head? = some c ∧ '1' ≤ c ∧ c ≤ '9') ∧
    ∀ d ∈ run.reverse, d.isDigit = true := by
  refine ⟨by simpa using h2, ?_, fun d hd => hg.1 d (List.mem_reverse.mp hd)⟩
  cases run with
  | nil => simp at h2
  | cons x xs =>
    obtain ⟨c, hlast⟩ := Option.isSome_iff_exists.mp
      (List.getLast?_isSome.mpr (List.cons_ne_nil x xs))
    obtain ⟨hc1, hc9⟩ := hg.2 c hlast
    exact ⟨c, by rw [List.head?_reverse, hlast], hc1, hc9⟩

/-- Every match emitted by the `[1-9]\d+` scanner, started in a state
satisfying the invariant, has length at least 2, starts with a digit
`1`–`9`, and consists of digits only. -/
theorem rriRunsAux_shape (s : List Char) : ∀ run m : List Char, goodRun run →
    m ∈ rriRunsAux run s →
    2 ≤ m.length ∧ (∃ c, m.head? = some c ∧ '1' ≤ c ∧ c ≤ '9') ∧
      ∀ d ∈ m, d.isDigit = true := by
  induction s with
  | nil =>
    intro run m hg hm
    rw [rriRunsAux] at hm
    by_cases h2 : 2 ≤ run.length
    · rw [if_pos h2] at hm
      simp only [List.mem_singleton] at hm
      subst hm
      exact goodRun_emit run hg h2
    · rw [if_neg h2] at hm
      exact absurd hm (List.not_mem_nil m)
  | cons c cs ih =>
    intro run m hg hm
    rw [rriRunsAux] at hm
    by_cases hrun : run = []
    · rw [if_pos hrun] at hm
      by_cases hc : '1' ≤ c ∧ c ≤ '9'
      · rw [if_pos hc] at hm
        refine ih [c] m ⟨?_, ?_⟩ hm
        · intro d hd
          rw [List.mem_singleton] at hd
          subst hd
          exact digit_of_one_to_nine d hc.1 hc.2
        · intro x hx
          simp only [List.getLast?_singleton, Option.some_inj] at hx
          subst hx
          exact hc
      · rw [if_neg hc] at hm
        exact ih [] m goodRun_nil hm
    · rw [if_neg hrun] at hm
      by_cases hd : c.isDigit = true
      · rw [if_pos hd] at hm
        refine ih (c :: run) m ⟨?_, ?_⟩ hm
        · intro d hdm
          rcases List.mem_cons.mp hdm with h | h
          · subst h; exact hd
          · exact hg.1 d h
        · intro x hx
          cases run with
          | nil => exact absurd rfl hrun
          | cons y ys =>
            rw [List.getLast?_cons_cons] at hx
            exact hg.2 x hx
      · rw [if_neg hd] at hm
        by_cases h2 : 2 ≤ run.length
        · rw [if_pos h2] at hm
          rcases List.mem_cons.mp hm with h | h
          · subst h
            exact goodRun_emit run hg h2
          · exact ih [] m goodRun_nil h
        · rw [if_neg h2] at hm
          exact ih [] m goodRun_nil hm

/-- C6: every match the text parser extracts is a multi-digit positive
integer — length at least 2, first character a digit `1`–`9` (so no
leading zero), all characters digits — in text order; and on the input
`"800\n810\n790\n"` the parser returns `[800.0, 810.0, 790.0]`. -/
theorem text_parser_matches_shape_and_example :
    (∀ s m : List Char, m ∈ findallRRI s →
      2 ≤ m.length ∧ (∃ c, m.head? = some c ∧ '1' ≤ c ∧ c ≤ '9') ∧
        ∀ d ∈ m, d.isDigit = true) ∧
    _open_rri_from_text "800\n810\n790\n".data = [800, 810, 790] :=
  ⟨fun s m hm => rriRunsAux_shape s [] m goodRun_nil hm, by decide⟩

/-- Witness for C6's theorem: the match `"800"` of the concrete input has
the required shape, and the parse of the concrete input. -/
theorem text_parser_matches_shape_and_example_witness :
    (2 ≤ ("800".data : List Char).length ∧
      (∃ c, ("800".data : List Char).head? = some c ∧ '1' ≤ c ∧ c ≤ '9') ∧
      ∀ d ∈ ("800".data : List Char), d.isDigit = true) ∧
    _open_rri_from_text "800\n810\n790\n".data = [800, 810, 790] :=
  ⟨text_parser_matches_shape_and_example.1 "800\n810\n790\n".data "800".data (by decide),
    text_parser_matches_shape_and_example.2⟩

/-- The check `lineOK` holds exactly when the line has no digit run or its first
digit run equals the whitespace-stripped line. -/
theorem lineOK_iff (line : List Char) :
    lineOK line = true ↔
      (findallDigits line = [] ∨ (findallDigits line).headD [] = pyStrip line) := by
  cases h : findallDigits line with
  | nil => simp [lineOK, h]
  | cons m ms => simp [lineOK, h]

/-- C5: content containing `[HRData]` is classified hrm; marker-free
content with some digit-bearing line whose first digit run differs from
the stripped line (such as `"12 34"`) raises `FileNotSupportedError`;
marker-free content all of whose lines pass the check (lines with no
digits included) is classified text. -/
theorem sniffer_classification (s : List Char) :
    ((findSub hrDataMarker s).isSome = true → _identify_rri_file_type s = .ok .hrm) ∧
    (findSub hrDataMarker s = none →
      (∃ line ∈ splitNL s, findallDigits line ≠ [] ∧
        (findallDigits line).headD [] ≠ pyStrip line) →
      _identify_rri_file_type s = .error .fileNotSupported) ∧
    (findSub hrDataMarker s = none →
      (∀ line ∈ splitNL s, findallDigits line = [] ∨
        (findallDigits line).headD [] = pyStrip line) →
      _identify_rri_file_type s = .ok .text) := by
  refine ⟨?_, ?_, ?_⟩
  · intro h
    rw [_identify_rri_file_type, if_pos h]
  · intro hnone hbad
    obtain ⟨line, hmem, hne, hdiff⟩ := hbad
    rw [_identify_rri_file_type, if_neg (by rw [hnone]; simp), if_neg ?_]
    intro hall
    rw [List.all_eq_true] at hall
    rcases (lineOK_iff line).mp (hall line hmem) with h | h
    · exact hne h
    · exact hdiff h
  · intro hnone hall
    rw [_identify_rri_file_type, if_neg (by rw [hnone]; simp),
      if_pos (List.all_eq_true.mpr fun l hl => (lineOK_iff l).mpr (hall l hl))]

/-- Witness for C5's theorem at the concrete inputs `"12 34"` (two tokens
on one line), `"[HRData]..."`, and `"800\n810"`. -/
theorem sniffer_classification_witness :
    _identify_rri_file_type "[HRData]\n700\n710\n720\n".data = .ok .hrm ∧
    _identify_rri_file_type "12 34".data = .error .fileNotSupported ∧
    _identify_rri_file_type "800\n810".data = .ok .text :=
  ⟨(sniffer_classification "[HRData]\n700\n710\n720\n".data).1 (by decide),
    (sniffer_classification "12 34".data).2.1 (by decide)
      ⟨"12 34".data, by decide, by decide, by decide⟩,
    (sniffer_classification "800\n810".data).2.2 (by decide) (by decide)⟩

/-- C8: the HRM parser returns no data whenever the marker `[HRData]` is
absent; with the marker present it extracts the digit runs from the
marker up to but excluding the final character of the content:
`"[HRData]\n700\n710\n720\n"` is sniffed hrm and parses to
`[700.0, 710.0, 720.0]`, and in `"[HRData]\n725"` the final character
`'5'` is excluded, yielding `[72.0]`. -/
theorem hrm_parser_marker_and_example :
    (∀ s : List Char, findSub hrDataMarker s = none → _open_rri_from_hrm s = none) ∧
    _identify_rri_file_type "[HRData]\n700\n710\n720\n".data = .ok .hrm ∧
    _open_rri_from_hrm "[HRData]\n700\n710\n720\n".data = some [700, 710, 720] ∧
    _open_rri_from_hrm "[HRData]\n725".data = some [72] := by
  refine ⟨?_, by decide, by decide, by decide⟩
  intro s h
  simp [_open_rri_from_hrm, h]

/-- Witness for C8's theorem: marker-free content parses to `None`. -/
theorem hrm_parser_marker_and_example_witness :
    _open_rri_from_hrm "700 710".data = none :=
  hrm_parser_marker_and_example.1 "700 710".data (by decide)

/-- The sniffer only ever raises `FileNotSupportedError`. -/
theorem identify_error_is_fileNotSupported (content : List Char) (e : Err)
    (h : _identify_rri_file_type content = .error e) : e = .fileNotSupported := by
  rw [_identify_rri_file_type] at h
  by_cases h1 : (findSub hrDataMarker content).isSome = true
  · rw [if_pos h1] at h
    exact absurd h (by simp)
  · rw [if_neg h1] at h
    by_cases h2 : (splitNL content).all lineOK = true
    · rw [if_pos h2] at h
      exact absurd h (by simp)
    · rw [if_neg h2] at h
      injection h with h
      exact h.symm

/-- Loading from an open stream only ever raises `EmptyFileError` or
`FileNotSupportedError`, never the unbound-variable `NameError`. -/
theorem fileobj_no_name_error (content : List Char) :
    _open_rri_from_fileobj content ≠ .error .nameError := by
  rw [_open_rri_from_fileobj]
  cases hft : _identify_rri_file_type content with
  | error e =>
    intro hbad
    injection hbad with hbad
    exact absurd (identify_error_is_fileNotSupported content e hft) (by rw [hbad]; simp)
  | ok ft =>
    cases ft with
    | text =>
      dsimp only
      by_cases he : _open_rri_from_text content = []
      · rw [if_pos he]; simp
      · rw [if_neg he]; simp
    | hrm =>
      dsimp only
      cases _open_rri_from_hrm content with
      | none => simp
      | some rri =>
        dsimp only
        by_cases he : rri = []
        · rw [if_pos he]; simp
        · rw [if_neg he]; simp

/-- The final `_transform_rri(rri)` step of `open_rri`, applied to the
outcome `r` of the parsing stage: it propagates errors and canonicalizes
successes. -/
theorem transform_step_behavior (r : Except Err (List ℚ)) (hr : r ≠ .error .nameError) :
    (match r with
      | .error e => (.error e : Except Err (List ℚ))
      | .ok rri => .ok (_transform_rri rri)) ≠ .error .nameError ∧
    ∀ v, (match r with
      | .error e => (.error e : Except Err (List ℚ))
      | .ok rri => .ok (_transform_rri rri)) = .ok v →
      ∃ raw, r = .ok raw ∧ v = _transform_rri raw := by
  cases r with
  | error e => exact ⟨hr, fun v hv => absurd hv (by simp)⟩
  | ok rri =>
    refine ⟨by simp, fun v hv => ⟨rri, rfl, ?_⟩⟩
    injection hv with hv
    exact hv.symm

/-- An accepted extension (`.txt` or `.hrm`) routes the path branch to the
stream loader; the two accepting branches are identical. -/
theorem open_rri_path_eq_fileobj (pathname content : String)
    (h : pyEndswith pathname ".txt" = true ∨ pyEndswith pathname ".hrm" = true) :
    _open_rri_from_path pathname content = _open_rri_from_fileobj content.data := by
  rw [_open_rri_from_path]
  rcases h with h | h
  · rw [if_pos h]
  · by_cases ht : pyEndswith pathname ".txt" = true
    · rw [if_pos ht]
    · rw [if_neg ht, if_pos h]

/-- C9: `open_rri` accepts a path string ending in `.txt` or `.hrm` or an
open text stream, and on those inputs never reaches the undefined-variable
branch: it returns the canonical interval sequence (`_transform_rri` of
the parsed raw sequence) or a defined parse error. A path with any other
extension raises `FileNotSupportedError`. The `NameError` branch is
reached only by a non-path, non-stream argument. -/
theorem open_rri_contract (pathname content : String) :
    ((pyEndswith pathname ".txt" = true ∨ pyEndswith pathname ".hrm" = true) →
      (open_rri (.path pathname content) ≠ .error .nameError ∧
        ∀ v, open_rri (.path pathname content) = .ok v →
          ∃ raw, _open_rri_from_fileobj content.data = .ok raw ∧
            v = _transform_rri raw)) ∧
    (open_rri (.fileobj content) ≠ .error .nameError ∧
      ∀ v, open_rri (.fileobj content) = .ok v →
        ∃ raw, _open_rri_from_fileobj content.data = .ok raw ∧
          v = _transform_rri raw) ∧
    (pyEndswith pathname ".txt" = false → pyEndswith pathname ".hrm" = false →
      open_rri (.path pathname content) = .error .fileNotSupported) ∧
    open_rri .other = .error .nameError := by
  refine ⟨?_, ?_, ?_, rfl⟩
  · intro h
    have hrw : open_rri (.path pathname content) =
        (match _open_rri_from_fileobj content.data with
          | .error e => (.error e : Except Err (List ℚ))
          | .ok rri => .ok (_transform_rri rri)) := by
      show (match _open_rri_from_path pathname content with
        | .error e => (.error e : Except Err (List ℚ))
        | .ok rri => .ok (_transform_rri rri)) = _
      rw [open_rri_path_eq_fileobj pathname content h]
    rw [hrw]
    exact transform_step_behavior _ (fileobj_no_name_error content.data)
  · exact transform_step_behavior _ (fileobj_no_name_error content.data)
  · intro ht hh
    show (match _open_rri_from_path pathname content with
      | .error e => (.error e : Except Err (List ℚ))
      | .ok rri => .ok (_transform_rri rri)) = .error .fileNotSupported
    rw [_open_rri_from_path, if_neg (by simp [ht]), if_neg (by simp [hh])]

/-- Witness for C9's theorem: a concrete `.txt` path load succeeds and is
not the `NameError` branch, and a concrete `.xyz` path is rejected. -/
theorem open_rri_contract_witness :
    open_rri (.path "a.txt" "800\n810\n790\n") ≠ .error .nameError ∧
    open_rri (.path "b.xyz" "800\n810\n790\n") = .error .fileNotSupported := by
  constructor
  · exact ((open_rri_contract "a.txt" "800\n810\n790\n").1 (Or.inl (by decide))).1
  · exact (open_rri_contract "b.xyz" "800\n810\n790\n").2.2.1 (by decide) (by decide)

/-- C10: the extension gates acceptance only and never selects the parser:
a `.txt` path and a `.hrm` path with the same content load identically.
Content sniffing alone chooses the parser — a `.txt` file containing
`[HRData]` is parsed by the HRM parser (here yielding the single-digit
values `[7, 8, 9]`, which the text parser would reject as zero matches),
and a `.hrm` file without the marker is subjected to the
one-integer-per-line text sniff (here `"12 34"`, which fails it). -/
theorem extension_gates_acceptance_only :
    (∀ n1 n2 content : String, pyEndswith n1 ".txt" = true →
      pyEndswith n2 ".hrm" = true →
      open_rri (.path n1 content) = open_rri (.path n2 content)) ∧
    open_rri (.path "x.txt" "[HRData]\n7\n8\n9\n") = .ok [7, 8, 9] ∧
    _open_rri_from_text "[HRData]\n7\n8\n9\n".data = [] ∧
    open_rri (.path "y.hrm" "12 34") = .error .fileNotSupported := by
  refine ⟨?_, by decide, by decide, by decide⟩
  intro n1 n2 content h1 h2
  show (match _open_rri_from_path n1 content with
    | .error e => (.error e : Except Err (List ℚ))
    | .ok rri => .ok (_transform_rri rri)) =
    (match _open_rri_from_path n2 content with
      | .error e => (.error e : Except Err (List ℚ))
      | .ok rri => .ok (_transform_rri rri))
  rw [open_rri_path_eq_fileobj n1 content (Or.inl h1),
    open_rri_path_eq_fileobj n2 content (Or.inr h2)]

/-- Witness for C10's theorem: the same content loads identically through
`a.txt` and `b.hrm`. -/
theorem extension_gates_acceptance_only_witness :
    open_rri (.path "a.txt" "800\n810\n790\n") =
      open_rri (.path "b.hrm" "800\n810\n790\n") :=
  extension_gates_acceptance_only.1 "a.txt" "b.hrm" "800\n810\n790\n"
    (by decide) (by decide)

end HRV
